import Mathlib

/-!
Shallow embedding of the environment-map core of the skylibs repository
(`src/envmap/environmentmap.py`) over real arithmetic, together with proofs
and refutations of the specification's claims about it.

Modelling conventions:
* numpy float scalars are modelled as real numbers (`ℝ`);
* `np.arctan2 y x` is modelled as the argument of the complex number
  `x + y*I` (range `(-π, π]`, `atan2 0 0 = 0`, matching numpy up to the
  behaviour of signed zeros, which have no real-number counterpart);
* boolean validity arrays are modelled as `Prop`-valued masks together with
  their shape (the `dtype == 'bool'` assert of `setBackgroundColor` is
  inherent in the type and cannot fail in the model);
* a numpy array of shape `(rows, cols, channels)` is a size triple plus a
  total value function; `scipy`'s `RegularGridInterpolator` is an external
  collaborator and is modelled by an arbitrary interpolation oracle
  `interp`, together with its documented shape contract (the values array
  must have shape `(len(points[0]), len(points[1]))`, and `reshape`
  requires matching total sizes), which is all the shape/error claims need;
* a Python method that can raise is modelled as returning the pair of the
  receiver's state at exit and a success flag (`true` = normal return,
  `false` = exception raised); on a raise the state component is the
  receiver's state at the moment of the raise, since Python exceptions
  propagate while keeping all mutations already performed.
-/

noncomputable section

open Real Classical

namespace Skylibs

/-- Constant `eps = 2**-52` from the top of the source file. -/
def eps : ℝ := (2 : ℝ) ^ (-52 : ℤ)

/-- Model of `np.arctan2 y x`: the argument of the complex number `x + y*I`. -/
def atan2 (y x : ℝ) : ℝ := Complex.arg ⟨x, y⟩

/-- `world2latlong(x, y, z)`: `u = (1 + (1/π)·arctan2(x, -z))/2`,
`v = (1/π)·arccos(y)` (source lines 128-135). -/
def world2latlong (x y z : ℝ) : ℝ × ℝ :=
  ((1 + (1 / π) * atan2 x (-z)) / 2,
   (1 / π) * Real.arccos y)

/-- `world2angular(x, y, z)`: `rAngular = arccos(-z) / (2π·√(x²+y²) + eps)`,
`u = 1/2 + rAngular·x`, `v = 1/2 - rAngular·y` (source lines 137-145). -/
def world2angular (x y z : ℝ) : ℝ × ℝ :=
  (1 / 2 + Real.arccos (-z) / (2 * π * Real.sqrt (x ^ 2 + y ^ 2) + eps) * x,
   1 / 2 - Real.arccos (-z) / (2 * π * Real.sqrt (x ^ 2 + y ^ 2) + eps) * y)

/-- `latlong2world(u, v)`: `θ = π(u·2 - 1)`, `φ = πv`,
`(x, y, z) = (sin φ sin θ, cos φ, -(sin φ cos θ))`, always valid
(source lines 147-161). -/
def latlong2world (u v : ℝ) : ℝ × ℝ × ℝ × Prop :=
  (Real.sin (π * v) * Real.sin (π * (u * 2 - 1)),
   Real.cos (π * v),
   -(Real.sin (π * v) * Real.cos (π * (u * 2 - 1))),
   True)

/-- `angular2world(u, v)`: `θ = arctan2(-2v+1, 2u-1)`,
`φ = π·√((2u-1)² + (2v-1)²)`, `(x, y, z) = (sin φ cos θ, sin φ sin θ, -cos φ)`,
valid iff `(u-0.5)² + (v-0.5)² ≤ 0.25` (source lines 163-177). -/
def angular2world (u v : ℝ) : ℝ × ℝ × ℝ × Prop :=
  (Real.sin (π * Real.sqrt ((2 * u - 1) ^ 2 + (2 * v - 1) ^ 2)) *
     Real.cos (atan2 (-2 * v + 1) (2 * u - 1)),
   Real.sin (π * Real.sqrt ((2 * u - 1) ^ 2 + (2 * v - 1) ^ 2)) *
     Real.sin (atan2 (-2 * v + 1) (2 * u - 1)),
   -Real.cos (π * Real.sqrt ((2 * u - 1) ^ 2 + (2 * v - 1) ^ 2)),
   (u - 0.5) ^ 2 + (v - 0.5) ^ 2 ≤ 0.25)

/-- `skyangular2world(u, v)`: `θ = arctan2(-2v+1, 2u-1)`,
`φ = (π/2)·√((2u-1)² + (2v-1)²)`, `(x, y, z) = (sin φ cos θ, cos φ, sin φ sin θ)`,
valid iff `(u-0.5)² + (v-0.5)² ≤ 0.25` (source lines 179-193). -/
def skyangular2world (u v : ℝ) : ℝ × ℝ × ℝ × Prop :=
  (Real.sin (π / 2 * Real.sqrt ((2 * u - 1) ^ 2 + (2 * v - 1) ^ 2)) *
     Real.cos (atan2 (-2 * v + 1) (2 * u - 1)),
   Real.cos (π / 2 * Real.sqrt ((2 * u - 1) ^ 2 + (2 * v - 1) ^ 2)),
   Real.sin (π / 2 * Real.sqrt ((2 * u - 1) ^ 2 + (2 * v - 1) ^ 2)) *
     Real.sin (atan2 (-2 * v + 1) (2 * u - 1)),
   (u - 0.5) ^ 2 + (v - 0.5) ^ 2 ≤ 0.25)

/-- `world2skyangular(x, y, z)`: `θ = arctan2(x, z)`,
`φ = arctan2(√(x²+z²), y)`, `r = φ/(π/2)`, `u = r·sin θ/2 + 1/2`,
`v = 1/2 - r·cos θ/2` (source lines 195-207). -/
def world2skyangular (x y z : ℝ) : ℝ × ℝ :=
  (atan2 (Real.sqrt (x ^ 2 + z ^ 2)) y / (π / 2) * Real.sin (atan2 x z) / 2 + 1 / 2,
   1 / 2 - atan2 (Real.sqrt (x ^ 2 + z ^ 2)) y / (π / 2) * Real.cos (atan2 x z) / 2)

/-- Round trip of `latlong2world` followed by `world2latlong`. -/
def latlongRT (u v : ℝ) : ℝ × ℝ :=
  world2latlong (latlong2world u v).1 (latlong2world u v).2.1 (latlong2world u v).2.2.1

/-- Round trip of `angular2world` followed by `world2angular`. -/
def angularRT (u v : ℝ) : ℝ × ℝ :=
  world2angular (angular2world u v).1 (angular2world u v).2.1 (angular2world u v).2.2.1

/-- Round trip of `skyangular2world` followed by `world2skyangular`. -/
def skyangularRT (u v : ℝ) : ℝ × ℝ :=
  world2skyangular (skyangular2world u v).1 (skyangular2world u v).2.1
    (skyangular2world u v).2.2.1

/-! Basic facts about `eps` and `atan2`. -/

lemma eps_pos : 0 < eps := by unfold eps; positivity

lemma complex_mk_eq_zero_iff (x y : ℝ) : (⟨x, y⟩ : ℂ) = 0 ↔ x = 0 ∧ y = 0 := by
  rw [Complex.ext_iff]
  simp

lemma atan2_zero_zero : atan2 0 0 = 0 := by
  have h : (⟨(0 : ℝ), (0 : ℝ)⟩ : ℂ) = 0 := by rw [complex_mk_eq_zero_iff]; exact ⟨rfl, rfl⟩
  rw [atan2, h, Complex.arg_zero]

lemma atan2_zero_neg_one : atan2 0 (-1) = π := by
  have h : (⟨(-1 : ℝ), (0 : ℝ)⟩ : ℂ) = -1 := by
    rw [Complex.ext_iff]
    simp
  rw [atan2, h, Complex.arg_neg_one]

lemma sin_atan2 (y x : ℝ) : Real.sin (atan2 y x) = y / Real.sqrt (x ^ 2 + y ^ 2) := by
  have h := Complex.sin_arg (⟨x, y⟩ : ℂ)
  rw [atan2, h, Complex.abs_apply, Complex.normSq_mk]
  norm_num
  rw [show x * x + y * y = x ^ 2 + y ^ 2 by ring]

lemma cos_atan2 (y x : ℝ) (h : ¬(x = 0 ∧ y = 0)) :
    Real.cos (atan2 y x) = x / Real.sqrt (x ^ 2 + y ^ 2) := by
  have hz : (⟨x, y⟩ : ℂ) ≠ 0 := by
    rw [Ne, complex_mk_eq_zero_iff]
    exact h
  have hc := Complex.cos_arg hz
  rw [atan2, hc, Complex.abs_apply, Complex.normSq_mk]
  norm_num
  rw [show x * x + y * y = x ^ 2 + y ^ 2 by ring]

lemma atan2_mul_sin_cos {k θ : ℝ} (hk : 0 < k) (hθ : θ ∈ Set.Ioc (-π) π) :
    atan2 (k * Real.sin θ) (k * Real.cos θ) = θ := by
  have h : (⟨k * Real.cos θ, k * Real.sin θ⟩ : ℂ) =
      (k : ℂ) * (Complex.cos θ + Complex.sin θ * Complex.I) := by
    rw [Complex.mk_eq_add_mul_I, ← Complex.ofReal_cos, ← Complex.ofReal_sin]
    push_cast
    ring
  rw [atan2, h]
  exact Complex.arg_mul_cos_add_sin_mul_I hk hθ

lemma atan2_sin_cos {θ : ℝ} (hθ : θ ∈ Set.Ioc (-π) π) :
    atan2 (Real.sin θ) (Real.cos θ) = θ := by
  have h := atan2_mul_sin_cos one_pos hθ
  rw [one_mul, one_mul] at h
  exact h

lemma atan2_zero_one : atan2 0 1 = 0 := by
  have h : (⟨(1 : ℝ), (0 : ℝ)⟩ : ℂ) = 1 := by
    rw [Complex.ext_iff]
    simp
  rw [atan2, h, Complex.arg_one]

/-! Round-trip lemmas for the three formats. -/

lemma latlong_roundtrip (u v : ℝ) (hu0 : 0 < u) (hu1 : u ≤ 1)
    (hv0 : 0 < v) (hv1 : v < 1) : latlongRT u v = (u, v) := by
  have hπ := Real.pi_pos
  have hsin : 0 < Real.sin (π * v) :=
    Real.sin_pos_of_pos_of_lt_pi (by positivity) (by nlinarith)
  have hθ : π * (u * 2 - 1) ∈ Set.Ioc (-π) π := ⟨by nlinarith, by nlinarith⟩
  simp only [latlongRT, latlong2world, world2latlong, neg_neg]
  rw [atan2_mul_sin_cos hsin hθ,
    Real.arccos_cos (by positivity) (by nlinarith)]
  rw [Prod.mk.injEq]
  constructor
  · field_simp
  · field_simp

lemma skyangular_roundtrip (u v : ℝ) (h : (u - 0.5) ^ 2 + (v - 0.5) ^ 2 ≤ 0.25) :
    skyangularRT u v = (u, v) := by
  have hπ := Real.pi_pos
  simp only [skyangularRT, skyangular2world, world2skyangular]
  rw [show ((2 * v - 1 : ℝ)) ^ 2 = (-2 * v + 1) ^ 2 from by ring]
  by_cases hc : (2 * u - 1 : ℝ) = 0 ∧ (-2 * v + 1 : ℝ) = 0
  · obtain ⟨hs, ht⟩ := hc
    have hu : u = 1 / 2 := by linarith
    have hv : v = 1 / 2 := by linarith
    subst hu hv
    norm_num [atan2_zero_zero, atan2_zero_one, Real.sqrt_zero]
  · have hne : (2 * u - 1) ^ 2 + (-2 * v + 1) ^ 2 ≠ 0 := by
      intro h0
      have hs2 : (2 * u - 1) ^ 2 = 0 := by
        nlinarith [sq_nonneg (2 * u - 1), sq_nonneg (-2 * v + 1)]
      have ht2 : (-2 * v + 1) ^ 2 = 0 := by
        nlinarith [sq_nonneg (2 * u - 1), sq_nonneg (-2 * v + 1)]
      exact hc ⟨(pow_eq_zero_iff (by norm_num)).mp hs2, (pow_eq_zero_iff (by norm_num)).mp ht2⟩
    have hst : 0 < (2 * u - 1) ^ 2 + (-2 * v + 1) ^ 2 :=
      lt_of_le_of_ne (by positivity) (Ne.symm hne)
    set D := Real.sqrt ((2 * u - 1) ^ 2 + (-2 * v + 1) ^ 2) with hDdef
    have hDpos : 0 < D := Real.sqrt_pos.mpr hst
    have hD2 : D ^ 2 = (2 * u - 1) ^ 2 + (-2 * v + 1) ^ 2 := Real.sq_sqrt hst.le
    have hD1 : D ≤ 1 := by
      rw [hDdef]
      calc Real.sqrt ((2 * u - 1) ^ 2 + (-2 * v + 1) ^ 2) ≤ Real.sqrt 1 :=
            Real.sqrt_le_sqrt (by nlinarith)
        _ = 1 := Real.sqrt_one
    have hφpos : 0 < π / 2 * D := mul_pos (by positivity) hDpos
    have hφle : π / 2 * D ≤ π / 2 := by nlinarith
    have hsinφ : 0 < Real.sin (π / 2 * D) :=
      Real.sin_pos_of_pos_of_lt_pi hφpos (by nlinarith)
    have hmemφ : π / 2 * D ∈ Set.Ioc (-π) π := ⟨by nlinarith, by nlinarith⟩
    rw [cos_atan2 (-2 * v + 1) (2 * u - 1) hc, sin_atan2 (-2 * v + 1) (2 * u - 1),
      ← hDdef]
    have hXZsum : (Real.sin (π / 2 * D) * ((2 * u - 1) / D)) ^ 2 +
        (Real.sin (π / 2 * D) * ((-2 * v + 1) / D)) ^ 2 = Real.sin (π / 2 * D) ^ 2 := by
      rw [show (Real.sin (π / 2 * D) * ((2 * u - 1) / D)) ^ 2 +
            (Real.sin (π / 2 * D) * ((-2 * v + 1) / D)) ^ 2 =
          Real.sin (π / 2 * D) ^ 2 * (((2 * u - 1) ^ 2 + (-2 * v + 1) ^ 2) / D ^ 2)
          from by ring, ← hD2, div_self (pow_ne_zero 2 hDpos.ne'), mul_one]
    have hsqrtXZ : Real.sqrt ((Real.sin (π / 2 * D) * ((2 * u - 1) / D)) ^ 2 +
        (Real.sin (π / 2 * D) * ((-2 * v + 1) / D)) ^ 2) = Real.sin (π / 2 * D) := by
      rw [hXZsum]
      exact Real.sqrt_sq hsinφ.le
    rw [hsqrtXZ, atan2_sin_cos hmemφ]
    have hXZ0 : ¬(Real.sin (π / 2 * D) * ((-2 * v + 1) / D) = 0 ∧
        Real.sin (π / 2 * D) * ((2 * u - 1) / D) = 0) := by
      rintro ⟨h1, h2⟩
      have h0 : (Real.sin (π / 2 * D) * ((2 * u - 1) / D)) ^ 2 +
          (Real.sin (π / 2 * D) * ((-2 * v + 1) / D)) ^ 2 = 0 := by
        rw [h1, h2]
        ring
      rw [hXZsum] at h0
      nlinarith
    rw [sin_atan2 (Real.sin (π / 2 * D) * ((2 * u - 1) / D))
        (Real.sin (π / 2 * D) * ((-2 * v + 1) / D)),
      cos_atan2 (Real.sin (π / 2 * D) * ((2 * u - 1) / D))
        (Real.sin (π / 2 * D) * ((-2 * v + 1) / D)) hXZ0]
    have hsqrtZX : Real.sqrt ((Real.sin (π / 2 * D) * ((-2 * v + 1) / D)) ^ 2 +
        (Real.sin (π / 2 * D) * ((2 * u - 1) / D)) ^ 2) = Real.sin (π / 2 * D) := by
      rw [show (Real.sin (π / 2 * D) * ((-2 * v + 1) / D)) ^ 2 +
            (Real.sin (π / 2 * D) * ((2 * u - 1) / D)) ^ 2 =
          (Real.sin (π / 2 * D) * ((2 * u - 1) / D)) ^ 2 +
            (Real.sin (π / 2 * D) * ((-2 * v + 1) / D)) ^ 2 from by ring]
      exact hsqrtXZ
    rw [hsqrtZX]
    have hπ2 : (π / 2 : ℝ) ≠ 0 := by positivity
    have hdivπ : π / 2 * D / (π / 2) = D := by
      rw [mul_comm, mul_div_assoc, div_self hπ2, mul_one]
    have hdiv1 : Real.sin (π / 2 * D) * ((2 * u - 1) / D) / Real.sin (π / 2 * D) =
        (2 * u - 1) / D := mul_div_cancel_left₀ _ hsinφ.ne'
    have hdiv2 : Real.sin (π / 2 * D) * ((-2 * v + 1) / D) / Real.sin (π / 2 * D) =
        (-2 * v + 1) / D := mul_div_cancel_left₀ _ hsinφ.ne'
    rw [hdivπ, hdiv1, hdiv2, mul_comm D ((2 * u - 1) / D), mul_comm D ((-2 * v + 1) / D),
      div_mul_cancel₀ _ hDpos.ne', div_mul_cancel₀ _ hDpos.ne', Prod.mk.injEq]
    constructor
    · linarith
    · linarith

set_option maxHeartbeats 1600000 in
lemma angular_roundtrip_err (u v : ℝ) (h : (u - 0.5) ^ 2 + (v - 0.5) ^ 2 < 0.25) :
    |(angularRT u v).1 - u| ≤
      eps / (4 * π * Real.sin (π * Real.sqrt ((2 * u - 1) ^ 2 + (2 * v - 1) ^ 2))) ∧
    |(angularRT u v).2 - v| ≤
      eps / (4 * π * Real.sin (π * Real.sqrt ((2 * u - 1) ^ 2 + (2 * v - 1) ^ 2))) := by
  have hπ := Real.pi_pos
  by_cases hc : (2 * u - 1 : ℝ) = 0 ∧ (-2 * v + 1 : ℝ) = 0
  · obtain ⟨hs, ht⟩ := hc
    have hu : u = 1 / 2 := by linarith
    have hv : v = 1 / 2 := by linarith
    subst hu hv
    norm_num [angularRT, angular2world, world2angular, atan2_zero_zero, Real.sqrt_zero,
      Real.sin_zero, Real.cos_zero]
  · have hne : (2 * u - 1) ^ 2 + (-2 * v + 1) ^ 2 ≠ 0 := by
      intro h0
      have hs2 : (2 * u - 1) ^ 2 = 0 := by
        nlinarith [sq_nonneg (2 * u - 1), sq_nonneg (-2 * v + 1)]
      have ht2 : (-2 * v + 1) ^ 2 = 0 := by
        nlinarith [sq_nonneg (2 * u - 1), sq_nonneg (-2 * v + 1)]
      exact hc ⟨(pow_eq_zero_iff (by norm_num)).mp hs2, (pow_eq_zero_iff (by norm_num)).mp ht2⟩
    have hst : 0 < (2 * u - 1) ^ 2 + (-2 * v + 1) ^ 2 :=
      lt_of_le_of_ne (by positivity) (Ne.symm hne)
    simp only [angularRT, angular2world, world2angular, neg_neg]
    rw [show ((2 * v - 1 : ℝ)) ^ 2 = (-2 * v + 1) ^ 2 from by ring]
    set D := Real.sqrt ((2 * u - 1) ^ 2 + (-2 * v + 1) ^ 2) with hDdef
    have hDpos : 0 < D := Real.sqrt_pos.mpr hst
    have hD2 : D ^ 2 = (2 * u - 1) ^ 2 + (-2 * v + 1) ^ 2 := Real.sq_sqrt hst.le
    have hD1 : D < 1 := by
      have h1 : (2 * u - 1) ^ 2 + (-2 * v + 1) ^ 2 < 1 := by nlinarith
      nlinarith [Real.sqrt_nonneg ((2 * u - 1) ^ 2 + (-2 * v + 1) ^ 2)]
    have hφpos : 0 < π * D := mul_pos hπ hDpos
    have hφlt : π * D < π := by nlinarith
    have hsinφ : 0 < Real.sin (π * D) := Real.sin_pos_of_pos_of_lt_pi hφpos hφlt
    rw [cos_atan2 (-2 * v + 1) (2 * u - 1) hc, sin_atan2 (-2 * v + 1) (2 * u - 1),
      ← hDdef, Real.arccos_cos hφpos.le hφlt.le]
    have hXY : (Real.sin (π * D) * ((2 * u - 1) / D)) ^ 2 +
        (Real.sin (π * D) * ((-2 * v + 1) / D)) ^ 2 = Real.sin (π * D) ^ 2 := by
      rw [show (Real.sin (π * D) * ((2 * u - 1) / D)) ^ 2 +
            (Real.sin (π * D) * ((-2 * v + 1) / D)) ^ 2 =
          Real.sin (π * D) ^ 2 * (((2 * u - 1) ^ 2 + (-2 * v + 1) ^ 2) / D ^ 2)
          from by ring, ← hD2, div_self (pow_ne_zero 2 hDpos.ne'), mul_one]
    have hsqrtXY : Real.sqrt ((Real.sin (π * D) * ((2 * u - 1) / D)) ^ 2 +
        (Real.sin (π * D) * ((-2 * v + 1) / D)) ^ 2) = Real.sin (π * D) := by
      rw [hXY]
      exact Real.sqrt_sq hsinφ.le
    rw [hsqrtXY]
    have hden : 0 < 2 * π * Real.sin (π * D) + eps :=
      add_pos (mul_pos (mul_pos two_pos hπ) hsinφ) eps_pos
    have h2den : 0 < 2 * (2 * π * Real.sin (π * D) + eps) := by linarith
    have hB : 0 < 4 * π * Real.sin (π * D) :=
      mul_pos (mul_pos (by norm_num) hπ) hsinφ
    have hSabs : |2 * u - 1| ≤ 1 := by
      have h1 : (2 * u - 1) ^ 2 < 1 := by nlinarith [sq_nonneg (-2 * v + 1)]
      nlinarith [sq_abs (2 * u - 1), abs_nonneg (2 * u - 1)]
    have hTabs : |-2 * v + 1| ≤ 1 := by
      have h1 : (-2 * v + 1) ^ 2 < 1 := by nlinarith [sq_nonneg (2 * u - 1)]
      nlinarith [sq_abs (-2 * v + 1), abs_nonneg (-2 * v + 1)]
    have hDc1 : D * ((2 * u - 1) / D) = 2 * u - 1 := by
      rw [mul_comm, div_mul_cancel₀ _ hDpos.ne']
    have hDc2 : D * ((-2 * v + 1) / D) = -2 * v + 1 := by
      rw [mul_comm, div_mul_cancel₀ _ hDpos.ne']
    have e1 : π * D / (2 * π * Real.sin (π * D) + eps) *
        (Real.sin (π * D) * ((2 * u - 1) / D)) =
        π * Real.sin (π * D) * (2 * u - 1) / (2 * π * Real.sin (π * D) + eps) := by
      rw [div_mul_eq_mul_div]
      congr 1
      calc π * D * (Real.sin (π * D) * ((2 * u - 1) / D))
          = π * Real.sin (π * D) * (D * ((2 * u - 1) / D)) := by ring
        _ = π * Real.sin (π * D) * (2 * u - 1) := by rw [hDc1]
    have e2 : π * D / (2 * π * Real.sin (π * D) + eps) *
        (Real.sin (π * D) * ((-2 * v + 1) / D)) =
        π * Real.sin (π * D) * (-2 * v + 1) / (2 * π * Real.sin (π * D) + eps) := by
      rw [div_mul_eq_mul_div]
      congr 1
      calc π * D * (Real.sin (π * D) * ((-2 * v + 1) / D))
          = π * Real.sin (π * D) * (D * ((-2 * v + 1) / D)) := by ring
        _ = π * Real.sin (π * D) * (-2 * v + 1) := by rw [hDc2]
    have key1 : 1 / 2 + π * Real.sin (π * D) * (2 * u - 1) /
          (2 * π * Real.sin (π * D) + eps) - u =
        -((2 * u - 1) * eps) / (2 * (2 * π * Real.sin (π * D) + eps)) := by
      rw [eq_div_iff h2den.ne']
      calc (1 / 2 + π * Real.sin (π * D) * (2 * u - 1) /
              (2 * π * Real.sin (π * D) + eps) - u) *
            (2 * (2 * π * Real.sin (π * D) + eps))
          = π * Real.sin (π * D) * (2 * u - 1) / (2 * π * Real.sin (π * D) + eps) *
              (2 * π * Real.sin (π * D) + eps) * 2 +
            (1 / 2 - u) * (2 * (2 * π * Real.sin (π * D) + eps)) := by ring
        _ = π * Real.sin (π * D) * (2 * u - 1) * 2 +
            (1 / 2 - u) * (2 * (2 * π * Real.sin (π * D) + eps)) := by
              rw [div_mul_cancel₀ _ hden.ne']
        _ = -((2 * u - 1) * eps) := by ring
    have key2 : 1 / 2 - π * Real.sin (π * D) * (-2 * v + 1) /
          (2 * π * Real.sin (π * D) + eps) - v =
        (-2 * v + 1) * eps / (2 * (2 * π * Real.sin (π * D) + eps)) := by
      rw [eq_div_iff h2den.ne']
      calc (1 / 2 - π * Real.sin (π * D) * (-2 * v + 1) /
              (2 * π * Real.sin (π * D) + eps) - v) *
            (2 * (2 * π * Real.sin (π * D) + eps))
          = -(π * Real.sin (π * D) * (-2 * v + 1) / (2 * π * Real.sin (π * D) + eps) *
              (2 * π * Real.sin (π * D) + eps) * 2) +
            (1 / 2 - v) * (2 * (2 * π * Real.sin (π * D) + eps)) := by ring
        _ = -(π * Real.sin (π * D) * (-2 * v + 1) * 2) +
            (1 / 2 - v) * (2 * (2 * π * Real.sin (π * D) + eps)) := by
              rw [div_mul_cancel₀ _ hden.ne']
        _ = (-2 * v + 1) * eps := by ring
    constructor
    · rw [e1, key1, abs_div, abs_neg, abs_mul, abs_of_pos eps_pos, abs_of_pos h2den,
        div_le_div_iff₀ h2den hB]
      nlinarith [mul_nonneg (sub_nonneg.mpr hSabs) (mul_nonneg eps_pos.le hB.le),
        mul_pos eps_pos eps_pos]
    · rw [e2, key2, abs_div, abs_mul, abs_of_pos eps_pos, abs_of_pos h2den,
        div_le_div_iff₀ h2den hB]
      nlinarith [mul_nonneg (sub_nonneg.mpr hTabs) (mul_nonneg eps_pos.le hB.le),
        mul_pos eps_pos eps_pos]

/-! The data model: pixel buffers, validity masks, the `EnvironmentMap`
entity, and its stateful operations. -/

/-- A numpy array of shape `(rows, cols, chans)` holding float samples:
the shape together with a total value function (entries outside the shape
are irrelevant junk). -/
structure Array3 where
  rows : ℕ
  cols : ℕ
  chans : ℕ
  val : ℕ → ℕ → ℕ → ℝ

/-- A boolean numpy array of shape `(rows, cols)` (a validity mask). -/
structure Mask2 where
  rows : ℕ
  cols : ℕ
  val : ℕ → ℕ → Prop

/-- The `EnvironmentMap` entity: pixel buffer `data`, format tag `format_`,
and `backgroundColor` (modelled as a per-channel value, `np.array([0,0,0])`
initially). -/
structure EnvironmentMap where
  data : Array3
  format_ : String
  backgroundColor : ℕ → ℝ

/-- `SUPPORTED_FORMATS` from the top of the source file. -/
def SUPPORTED_FORMATS : List String := ["angular", "skyangular", "latlong"]

/-- Python's `str.lower()` (ASCII case folding, character by character). -/
def pyLower (s : String) : String := ⟨s.data.map Char.toLower⟩

/-- `EnvironmentMap.__init__`: asserts `format_.lower() in SUPPORTED_FORMATS`
(construction error otherwise, producing no object), stores the image and the
lowercased format tag, and sets the background color to black. -/
def init (im : Array3) (format_ : String) : Option EnvironmentMap :=
  if pyLower format_ ∈ SUPPORTED_FORMATS then
    some ⟨im, pyLower format_, fun _ => 0⟩
  else none

/-- Element `t` of `np.linspace(0, 1, num)`. -/
def linspace01 (num t : ℕ) : ℝ := (t : ℝ) / ((num : ℝ) - 1)

/-- `imageCoordinates` (source lines 37-45), U component: `meshgrid` of
`linspace(0, 1, cols*2+1)[1::2]`, so `U[i][j]` is element `2j+1` of the
linspace and does not depend on `i`. -/
def imageCoordinatesU (e : EnvironmentMap) (_i j : ℕ) : ℝ :=
  linspace01 (e.data.cols * 2 + 1) (2 * j + 1)

/-- `imageCoordinates` (source lines 37-45), V component: `V[i][j]` is
element `2i+1` of `linspace(0, 1, rows*2+1)` and does not depend on `j`. -/
def imageCoordinatesV (e : EnvironmentMap) (i _j : ℕ) : ℝ :=
  linspace01 (e.data.rows * 2 + 1) (2 * i + 1)

/-- The `image2world` dispatch dictionary keyed by a format string;
`.get` on an unknown key yields `None` (calling it raises `TypeError`). -/
def i2w (fmt : String) (u v : ℝ) : Option (ℝ × ℝ × ℝ × Prop) :=
  if fmt = "angular" then some (angular2world u v)
  else if fmt = "skyangular" then some (skyangular2world u v)
  else if fmt = "latlong" then some (latlong2world u v)
  else none

/-- The `world2image` dispatch dictionary keyed by a format string. -/
def w2i (fmt : String) (x y z : ℝ) : Option (ℝ × ℝ) :=
  if fmt = "angular" then some (world2angular x y z)
  else if fmt = "skyangular" then some (world2skyangular x y z)
  else if fmt = "latlong" then some (world2latlong x y z)
  else none

/-- `image2world` (source lines 53-60): dispatch on the current format. -/
def image2world (e : EnvironmentMap) (u v : ℝ) : Option (ℝ × ℝ × ℝ × Prop) :=
  i2w e.format_ u v

/-- `world2image` (source lines 62-69): dispatch on the current format. -/
def world2image (e : EnvironmentMap) (x y z : ℝ) : Option (ℝ × ℝ) :=
  w2i e.format_ x y z

/-- Total version of the `image2world` dispatch, used by `convertTo` under
its format guards (where the lookup is known to succeed). -/
def i2wTotal (fmt : String) (u v : ℝ) : ℝ × ℝ × ℝ × Prop :=
  if fmt = "angular" then angular2world u v
  else if fmt = "skyangular" then skyangular2world u v
  else latlong2world u v

/-- Total version of the `world2image` dispatch, used by `convertTo` under
its format guards (where the lookup is known to succeed). -/
def w2iTotal (fmt : String) (x y z : ℝ) : ℝ × ℝ :=
  if fmt = "angular" then world2angular x y z
  else if fmt = "skyangular" then world2skyangular x y z
  else world2latlong x y z

/-- The type of the interpolation oracle standing in for scipy's
`RegularGridInterpolator`: given the source map, the query coordinate
grids and an output position `(i, j, c)`, it yields the interpolated
value written there (out-of-domain queries may yield anything, including
the sentinel). -/
abbrev Interp :=
  EnvironmentMap → (ℕ → ℕ → ℝ) → (ℕ → ℕ → ℝ) → ℕ → ℕ → ℕ → ℝ

/-- `setBackgroundColor(color, valid)` (source lines 95-103): asserts that
`valid` is boolean (inherent in `Mask2`) and that `valid.shape[:2]` equals
`data.shape[:2]` — both before any mutation — then stores `color` and
overwrites every channel of every pixel with false mask entry with the
corresponding channel of `color`. -/
def setBackgroundColorRun (e : EnvironmentMap) (color : ℕ → ℝ) (valid : Mask2) :
    EnvironmentMap × Bool :=
  if valid.rows = e.data.rows ∧ valid.cols = e.data.cols then
    ({ data := { rows := e.data.rows, cols := e.data.cols, chans := e.data.chans,
                 val := fun i j c => if valid.val i j then e.data.val i j c else color c },
       format_ := e.format_,
       backgroundColor := color }, true)
  else (e, false)

/-- The state of the map right after `self.data = data` in `interpolate`
(source line 89): the buffer is replaced by the freshly allocated
`np.zeros((cols.size, rows.size, chans))` — note the transposed spatial
shape — filled by the interpolation oracle. -/
def interpolatedMap (interp : Interp) (e : EnvironmentMap) (qU qV : ℕ → ℕ → ℝ) :
    EnvironmentMap :=
  { data := { rows := e.data.cols, cols := e.data.rows, chans := e.data.chans,
              val := fun i j c => interp e qU qV i j c },
    format_ := e.format_,
    backgroundColor := e.backgroundColor }

/-- `interpolate(u, v, valid)` (source lines 71-93).  The per-channel loop
(when `chans ≠ 0`) raises inside scipy unless the values array of shape
`(rows, cols)` matches the grid `(cols.size, rows.size)` — which forces
`rows = cols` — and the flattened query of size `qRows*qCols` reshapes into
`(cols.size, rows.size)` — which forces `qRows*qCols = cols*rows`; those
raises happen before `self.data` is assigned, leaving the map unchanged.
On a completed loop `self.data` is replaced (`interpolatedMap`) and only
then is `setBackgroundColor` invoked, so a shape-mismatch raise there
leaves the replaced buffer in place. -/
def interpolateRun (interp : Interp) (e : EnvironmentMap) (qRows qCols : ℕ)
    (qU qV : ℕ → ℕ → ℝ) (valid : Mask2) : EnvironmentMap × Bool :=
  if e.data.chans ≠ 0 ∧
      ¬(e.data.rows = e.data.cols ∧ qRows * qCols = e.data.cols * e.data.rows) then
    (e, false)
  else
    setBackgroundColorRun (interpolatedMap interp e qU qV) e.backgroundColor valid

/-- `convertTo(targetFormat)` (source lines 105-126): asserts the target
format is supported; builds a zero scratch map `eTmp` tagged with the
lowercased target; takes `eTmp`'s world coordinates and validity mask;
projects them through the *current* format's `world2image` (a raise before
any mutation if the current tag is not in the dispatch table); then assigns
`self.format_ = targetFormat` *verbatim* (source line 125, no lowercasing)
and finally calls `interpolate`. -/
def convertToRun (interp : Interp) (e : EnvironmentMap) (targetFormat : String) :
    EnvironmentMap × Bool :=
  if pyLower targetFormat ∈ SUPPORTED_FORMATS then
    if e.format_ ∈ SUPPORTED_FORMATS then
      let eTmp : EnvironmentMap :=
        { data := { rows := e.data.rows, cols := e.data.cols, chans := e.data.chans,
                    val := fun _ _ _ => 0 },
          format_ := pyLower targetFormat,
          backgroundColor := fun _ => 0 }
      let w : ℕ → ℕ → ℝ × ℝ × ℝ × Prop := fun i j =>
        i2wTotal eTmp.format_ (imageCoordinatesU eTmp i j) (imageCoordinatesV eTmp i j)
      let q : ℕ → ℕ → ℝ × ℝ := fun i j =>
        w2iTotal e.format_ (w i j).1 (w i j).2.1 (w i j).2.2.1
      let valid : Mask2 :=
        { rows := e.data.rows, cols := e.data.cols, val := fun i j => (w i j).2.2.2 }
      interpolateRun interp
        { data := e.data, format_ := targetFormat, backgroundColor := e.backgroundColor }
        e.data.rows e.data.cols (fun i j => (q i j).1) (fun i j => (q i j).2) valid
    else (e, false)
  else (e, false)

/-! Concrete instances used by witnesses and counterexamples. -/

/-- The all-zero query grid helper. -/
def zfn : ℕ → ℕ → ℝ := fun _ _ => 0

/-- A concrete interpolation oracle returning 0 everywhere. -/
def oracle0 : Interp := fun _ _ _ _ _ _ => 0

/-- A concrete background color. -/
def color7 : ℕ → ℝ := fun _ => 7

/-- A 2×2×1 zero buffer. -/
def im22 : Array3 := ⟨2, 2, 1, fun _ _ _ => 0⟩

/-- A square 2×2×1 latlong map. -/
def e22 : EnvironmentMap := ⟨im22, "latlong", fun _ => 0⟩

/-- A 2×2×1 buffer holding 5 everywhere. -/
def im22five : Array3 := ⟨2, 2, 1, fun _ _ _ => 5⟩

/-- A square 2×2×1 latlong map with pixel value 5. -/
def e22five : EnvironmentMap := ⟨im22five, "latlong", fun _ => 0⟩

/-- A non-square 2×3×1 zero buffer. -/
def im231 : Array3 := ⟨2, 3, 1, fun _ _ _ => 0⟩

/-- A non-square 2×3×1 latlong map. -/
def e231 : EnvironmentMap := ⟨im231, "latlong", fun _ => 0⟩

/-- A non-square 2×3 buffer with zero channels. -/
def im230 : Array3 := ⟨2, 3, 0, fun _ _ _ => 0⟩

/-- A non-square 2×3×0 latlong map. -/
def e230 : EnvironmentMap := ⟨im230, "latlong", fun _ => 0⟩

/-- An all-true 2×2 mask. -/
def mask22T : Mask2 := ⟨2, 2, fun _ _ => True⟩

/-- An all-true 2×3 mask. -/
def mask23T : Mask2 := ⟨2, 3, fun _ _ => True⟩

/-- An all-true 3×2 mask. -/
def mask32T : Mask2 := ⟨3, 2, fun _ _ => True⟩

/-- A map whose format tag is not in the registry (as can arise after a
mixed-case `convertTo`). -/
def eBad : EnvironmentMap := ⟨im22, "Foo", fun _ => 0⟩

/-! General lemmas about the stateful runs. -/

lemma setBGC_run_pos (e : EnvironmentMap) (color : ℕ → ℝ) (valid : Mask2)
    (h1 : valid.rows = e.data.rows) (h2 : valid.cols = e.data.cols) :
    (setBackgroundColorRun e color valid).2 = true ∧
    (setBackgroundColorRun e color valid).1.format_ = e.format_ ∧
    (setBackgroundColorRun e color valid).1.backgroundColor = color ∧
    (setBackgroundColorRun e color valid).1.data.rows = e.data.rows ∧
    (setBackgroundColorRun e color valid).1.data.cols = e.data.cols ∧
    (setBackgroundColorRun e color valid).1.data.chans = e.data.chans ∧
    ∀ i j c, (setBackgroundColorRun e color valid).1.data.val i j c =
      if valid.val i j then e.data.val i j c else color c := by
  unfold setBackgroundColorRun
  rw [if_pos ⟨h1, h2⟩]
  exact ⟨rfl, rfl, rfl, rfl, rfl, rfl, fun i j c => rfl⟩

lemma setBGC_run_neg (e : EnvironmentMap) (color : ℕ → ℝ) (valid : Mask2)
    (h : ¬(valid.rows = e.data.rows ∧ valid.cols = e.data.cols)) :
    setBackgroundColorRun e color valid = (e, false) := by
  unfold setBackgroundColorRun
  rw [if_neg h]

lemma interpolateRun_guard (interp : Interp) (e : EnvironmentMap) (qRows qCols : ℕ)
    (qU qV : ℕ → ℕ → ℝ) (valid : Mask2)
    (h : e.data.chans ≠ 0 ∧
      ¬(e.data.rows = e.data.cols ∧ qRows * qCols = e.data.cols * e.data.rows)) :
    interpolateRun interp e qRows qCols qU qV valid = (e, false) := by
  unfold interpolateRun
  rw [if_pos h]

lemma interpolateRun_ok (interp : Interp) (e : EnvironmentMap) (qRows qCols : ℕ)
    (qU qV : ℕ → ℕ → ℝ) (valid : Mask2)
    (h : ¬(e.data.chans ≠ 0 ∧
      ¬(e.data.rows = e.data.cols ∧ qRows * qCols = e.data.cols * e.data.rows))) :
    interpolateRun interp e qRows qCols qU qV valid =
      setBackgroundColorRun (interpolatedMap interp e qU qV) e.backgroundColor valid := by
  unfold interpolateRun
  rw [if_neg h]

/-! Claims C2, C3, C6 and C10, about the entity layer. -/

/-- C2: the spec says the buffer `interpolate` writes has the query grid's
rows×cols shape.  The code instead allocates
`np.zeros((cols.size, rows.size, chans))` — the transpose of the source's
spatial shape, independent of the query grid.  At the failing input (the
non-square 2×3×1 map queried on its own 2×3 grid with a 2×3 mask, exactly
the `convertTo` call pattern) the call raises and the buffer is never
replaced at all; and a completed run (2×3 source with zero channels, whose
per-channel loop is empty) ends with buffer shape 3×2 ≠ query shape 2×3. -/
theorem C2_interpolate_shape_transposed :
    interpolateRun oracle0 e231 2 3 zfn zfn mask23T = (e231, false) ∧
    (interpolateRun oracle0 e230 2 3 zfn zfn mask32T).2 = true ∧
    (interpolateRun oracle0 e230 2 3 zfn zfn mask32T).1.data.rows = 3 ∧
    (interpolateRun oracle0 e230 2 3 zfn zfn mask32T).1.data.cols = 2 ∧
    (interpolateRun oracle0 e230 2 3 zfn zfn mask32T).1.data.chans = 0 := by
  refine ⟨?_, ?_, ?_, ?_, ?_⟩ <;>
    simp [interpolateRun, interpolatedMap, setBackgroundColorRun, e231, im231, e230,
      im230, mask32T]

/-- C3 counterexample: failure paths do mutate.  A square 2×2×1 map
interpolated with a wrongly-shaped 3×2 mask: the loop completes, the buffer
is replaced (pixel (0,0,0) becomes the oracle value 0, was 5), and only then
does `setBackgroundColor`'s shape assert raise — the failed call returns a
mutated map.  Likewise `convertTo` on a non-square map sets `format_` before
`interpolate` raises, so the failed call leaves the tag changed. -/
theorem C3_counterexample :
    ((interpolateRun oracle0 e22five 2 2 zfn zfn mask32T).2 = false ∧
     (interpolateRun oracle0 e22five 2 2 zfn zfn mask32T).1.data.val 0 0 0 = 0 ∧
     e22five.data.val 0 0 0 = 5 ∧
     (interpolateRun oracle0 e22five 2 2 zfn zfn mask32T).1.data.val 0 0 0 ≠
       e22five.data.val 0 0 0) ∧
    ((convertToRun oracle0 e231 "angular").2 = false ∧
     (convertToRun oracle0 e231 "angular").1.format_ = "angular" ∧
     e231.format_ = "latlong") := by
  have hmem : pyLower "angular" ∈ SUPPORTED_FORMATS := by decide
  have hmem2 : ("latlong" : String) ∈ SUPPORTED_FORMATS := by decide
  refine ⟨⟨?_, ?_, ?_, ?_⟩, ?_, ?_, ?_⟩ <;>
    norm_num [interpolateRun, interpolatedMap, setBackgroundColorRun, convertToRun,
      oracle0, e22five, im22five, e231, im231, mask32T, hmem, hmem2]

/-- C3 amended: validation that happens at entry is indeed
validate-then-mutate — a construction with an unknown format creates no
object, a `setBackgroundColor` failure leaves the map unchanged, a
`convertTo` whose target-format assert or whose `world2image` dispatch
fails leaves the map unchanged, and an `interpolate` that raises inside the
per-channel scipy loop leaves the map unchanged.  (The failures modelled in
the counterexample, which occur after `interpolate`'s buffer swap or after
`convertTo`'s tag assignment, are the exception.) -/
theorem C3_amended_validate_then_mutate :
    (∀ im fmt, pyLower fmt ∉ SUPPORTED_FORMATS → init im fmt = none) ∧
    (∀ (e : EnvironmentMap) (color : ℕ → ℝ) (valid : Mask2),
      (setBackgroundColorRun e color valid).2 = false →
      (setBackgroundColorRun e color valid).1 = e) ∧
    (∀ (interp : Interp) (e : EnvironmentMap) (tf : String),
      pyLower tf ∉ SUPPORTED_FORMATS → convertToRun interp e tf = (e, false)) ∧
    (∀ (interp : Interp) (e : EnvironmentMap) (tf : String),
      e.format_ ∉ SUPPORTED_FORMATS → pyLower tf ∈ SUPPORTED_FORMATS →
      convertToRun interp e tf = (e, false)) ∧
    (∀ (interp : Interp) (e : EnvironmentMap) (qRows qCols : ℕ)
        (qU qV : ℕ → ℕ → ℝ) (valid : Mask2),
      e.data.chans ≠ 0 →
      ¬(e.data.rows = e.data.cols ∧ qRows * qCols = e.data.cols * e.data.rows) →
      interpolateRun interp e qRows qCols qU qV valid = (e, false)) := by
  refine ⟨?_, ?_, ?_, ?_, ?_⟩
  · intro im fmt h
    unfold init
    rw [if_neg h]
  · intro e color valid h
    by_cases hc : valid.rows = e.data.rows ∧ valid.cols = e.data.cols
    · unfold setBackgroundColorRun at h
      rw [if_pos hc] at h
      simp at h
    · rw [setBGC_run_neg e color valid hc]
  · intro interp e tf h
    unfold convertToRun
    rw [if_neg h]
  · intro interp e tf h1 h2
    unfold convertToRun
    rw [if_pos h2, if_neg h1]
  · intro interp e qRows qCols qU qV valid h1 h2
    exact interpolateRun_guard interp e qRows qCols qU qV valid ⟨h1, h2⟩

/-- C3 amended witness: the validate-then-mutate cases at concrete inputs. -/
theorem C3_amended_witness :
    init im22 "foo" = none ∧
    (setBackgroundColorRun e22 color7 mask32T).1 = e22 ∧
    convertToRun oracle0 e22 "foo" = (e22, false) ∧
    convertToRun oracle0 eBad "angular" = (eBad, false) ∧
    interpolateRun oracle0 e231 1 6 zfn zfn mask23T = (e231, false) :=
  ⟨C3_amended_validate_then_mutate.1 im22 "foo" (by decide),
   C3_amended_validate_then_mutate.2.1 e22 color7 mask32T
     (by norm_num [setBackgroundColorRun, e22, im22, mask32T]),
   C3_amended_validate_then_mutate.2.2.1 oracle0 e22 "foo" (by decide),
   C3_amended_validate_then_mutate.2.2.2.1 oracle0 eBad "angular" (by decide) (by decide),
   C3_amended_validate_then_mutate.2.2.2.2 oracle0 e231 1 6 zfn zfn mask23T
     (by decide) (by decide)⟩

/-- C6: background filling is driven solely by the validity mask — with a
mask of matching spatial shape, `setBackgroundColor` succeeds, leaves every
pixel with a true mask entry untouched, and sets every channel of every
pixel with a false mask entry exactly to the color; and in a completed
`interpolate`, every pixel marked valid keeps exactly the value the
interpolation oracle produced, whatever that value is (the mask is not
intersected with any non-sentinel test). -/
theorem C6_background_fill_mask_only :
    (∀ (e : EnvironmentMap) (color : ℕ → ℝ) (valid : Mask2),
      valid.rows = e.data.rows → valid.cols = e.data.cols →
      (setBackgroundColorRun e color valid).2 = true ∧
      ∀ i j c,
        (valid.val i j →
          (setBackgroundColorRun e color valid).1.data.val i j c = e.data.val i j c) ∧
        (¬valid.val i j →
          (setBackgroundColorRun e color valid).1.data.val i j c = color c)) ∧
    (∀ (interp : Interp) (e : EnvironmentMap) (qRows qCols : ℕ)
        (qU qV : ℕ → ℕ → ℝ) (valid : Mask2),
      (interpolateRun interp e qRows qCols qU qV valid).2 = true →
      ∀ i j c, valid.val i j →
        (interpolateRun interp e qRows qCols qU qV valid).1.data.val i j c =
          interp e qU qV i j c) := by
  constructor
  · intro e color valid h1 h2
    have h := setBGC_run_pos e color valid h1 h2
    refine ⟨h.1, fun i j c => ⟨fun hv => ?_, fun hv => ?_⟩⟩
    · rw [h.2.2.2.2.2.2 i j c, if_pos hv]
    · rw [h.2.2.2.2.2.2 i j c, if_neg hv]
  · intro interp e qRows qCols qU qV valid hflag i j c hv
    by_cases hg : e.data.chans ≠ 0 ∧
        ¬(e.data.rows = e.data.cols ∧ qRows * qCols = e.data.cols * e.data.rows)
    · rw [interpolateRun_guard interp e qRows qCols qU qV valid hg] at hflag
      simp at hflag
    · rw [interpolateRun_ok interp e qRows qCols qU qV valid hg] at hflag ⊢
      by_cases hc : valid.rows = (interpolatedMap interp e qU qV).data.rows ∧
          valid.cols = (interpolatedMap interp e qU qV).data.cols
      · rw [(setBGC_run_pos _ _ _ hc.1 hc.2).2.2.2.2.2.2 i j c, if_pos hv]
        rfl
      · rw [setBGC_run_neg _ _ _ hc] at hflag
        simp at hflag

/-- C6 witness: the background-fill contract at a concrete map, color and
mask, and the oracle-value pass-through at a concrete completed run. -/
theorem C6_witness :
    (setBackgroundColorRun e22five color7 mask22T).2 = true ∧
    (setBackgroundColorRun e22five color7 mask22T).1.data.val 0 0 0 =
      e22five.data.val 0 0 0 ∧
    (interpolateRun oracle0 e22five 2 2 zfn zfn mask22T).1.data.val 0 0 0 =
      oracle0 e22five zfn zfn 0 0 0 :=
  ⟨(C6_background_fill_mask_only.1 e22five color7 mask22T rfl rfl).1,
   ((C6_background_fill_mask_only.1 e22five color7 mask22T rfl rfl).2 0 0 0).1 trivial,
   C6_background_fill_mask_only.2 oracle0 e22five 2 2 zfn zfn mask22T
     (by norm_num [interpolateRun, interpolatedMap, setBackgroundColorRun, e22five,
       im22five, mask22T])
     0 0 0 trivial⟩

/-- C10: the constructor lowercases the format tag (so the mixed-case
identifier "LatLong" constructs a map whose dispatch succeeds), but
`convertTo` assigns the target tag verbatim: converting a 2×2×1 latlong map
to "LatLong" completes successfully, leaves `format_ = "LatLong"`, and every
subsequent `image2world` dispatch on that map finds no transform (`none`,
i.e. the `None(u, v)` `TypeError` of the source). -/
theorem C10_convertTo_case_mismatch :
    init im22 "LatLong" = some e22 ∧
    e22.format_ = "latlong" ∧
    (image2world e22 0 0).isSome = true ∧
    (convertToRun oracle0 e22 "LatLong").2 = true ∧
    (convertToRun oracle0 e22 "LatLong").1.format_ = "LatLong" ∧
    image2world (convertToRun oracle0 e22 "LatLong").1 0 0 = none := by
  refine ⟨?_, rfl, ?_, ?_, ?_, ?_⟩ <;>
    simp [init, convertToRun, interpolateRun, interpolatedMap, setBackgroundColorRun,
      image2world, i2w, SUPPORTED_FORMATS, pyLower, e22, im22]

/-! Claims C4, C5, C7 and C9, about the transform formulas. -/

/-- C4: the Angular and SkyAngular image-to-world transforms mark a point
valid exactly when `(u-0.5)² + (v-0.5)² ≤ 0.25`, the closed disk inscribed
in the unit square. -/
theorem C4_valid_iff_disk (u v : ℝ) :
    ((angular2world u v).2.2.2 ↔ (u - 0.5) ^ 2 + (v - 0.5) ^ 2 ≤ 0.25) ∧
    ((skyangular2world u v).2.2.2 ↔ (u - 0.5) ^ 2 + (v - 0.5) ^ 2 ≤ 0.25) :=
  ⟨Iff.rfl, Iff.rfl⟩

/-- C5: the LatLong transforms compute exactly the spec formulas —
`latlong2world` returns `(sin(πv)·sin(π(2u-1)), cos(πv), -sin(πv)·cos(π(2u-1)))`
and is always valid, and `world2latlong` returns
`((1 + atan2(x,-z)/π)/2, arccos(y)/π)`. -/
theorem C5_latlong_formulas (u v x y z : ℝ) :
    (latlong2world u v).1 = Real.sin (π * v) * Real.sin (π * (2 * u - 1)) ∧
    (latlong2world u v).2.1 = Real.cos (π * v) ∧
    (latlong2world u v).2.2.1 = -(Real.sin (π * v) * Real.cos (π * (2 * u - 1))) ∧
    (latlong2world u v).2.2.2 ∧
    (world2latlong x y z).1 = (1 + atan2 x (-z) / π) / 2 ∧
    (world2latlong x y z).2 = Real.arccos y / π := by
  refine ⟨?_, rfl, ?_, trivial, ?_, ?_⟩
  · show Real.sin (π * v) * Real.sin (π * (u * 2 - 1)) = _
    rw [show π * (u * 2 - 1) = π * (2 * u - 1) by ring]
  · show -(Real.sin (π * v) * Real.cos (π * (u * 2 - 1))) = _
    rw [show π * (u * 2 - 1) = π * (2 * u - 1) by ring]
  · show (1 + 1 / π * atan2 x (-z)) / 2 = _
    ring
  · show 1 / π * Real.arccos y = _
    ring

/-- C7: at the world direction (0, 0, -1) the Angular world-to-image
denominator collapses to the epsilon guard alone, which is strictly
positive, and the transform returns exactly the finite pair (1/2, 1/2). -/
theorem C7_epsilon_guard_finite :
    2 * π * Real.sqrt ((0 : ℝ) ^ 2 + (0 : ℝ) ^ 2) + eps = eps ∧
    0 < eps ∧
    world2angular 0 0 (-1) = (1 / 2, 1 / 2) := by
  refine ⟨by norm_num, eps_pos, ?_⟩
  norm_num [world2angular]

/-- C9: for each format, the direction returned for a valid point lies
exactly on the unit sphere: `x² + y² + z² = 1`. -/
theorem C9_unit_sphere (u v : ℝ) :
    ((latlong2world u v).2.2.2 →
      (latlong2world u v).1 ^ 2 + (latlong2world u v).2.1 ^ 2 +
        (latlong2world u v).2.2.1 ^ 2 = 1) ∧
    ((angular2world u v).2.2.2 →
      (angular2world u v).1 ^ 2 + (angular2world u v).2.1 ^ 2 +
        (angular2world u v).2.2.1 ^ 2 = 1) ∧
    ((skyangular2world u v).2.2.2 →
      (skyangular2world u v).1 ^ 2 + (skyangular2world u v).2.1 ^ 2 +
        (skyangular2world u v).2.2.1 ^ 2 = 1) := by
  refine ⟨fun _ => ?_, fun _ => ?_, fun _ => ?_⟩
  · simp only [latlong2world]
    linear_combination (Real.sin (π * v)) ^ 2 * Real.sin_sq_add_cos_sq (π * (u * 2 - 1)) +
      Real.sin_sq_add_cos_sq (π * v)
  · simp only [angular2world]
    linear_combination
      (Real.sin (π * Real.sqrt ((2 * u - 1) ^ 2 + (2 * v - 1) ^ 2))) ^ 2 *
        Real.sin_sq_add_cos_sq (atan2 (-2 * v + 1) (2 * u - 1)) +
      Real.sin_sq_add_cos_sq (π * Real.sqrt ((2 * u - 1) ^ 2 + (2 * v - 1) ^ 2))
  · simp only [skyangular2world]
    linear_combination
      (Real.sin (π / 2 * Real.sqrt ((2 * u - 1) ^ 2 + (2 * v - 1) ^ 2))) ^ 2 *
        Real.sin_sq_add_cos_sq (atan2 (-2 * v + 1) (2 * u - 1)) +
      Real.sin_sq_add_cos_sq (π / 2 * Real.sqrt ((2 * u - 1) ^ 2 + (2 * v - 1) ^ 2))

/-- C9 witness: the unit-sphere property at the valid point (1/2, 1/2) of
each format. -/
theorem C9_witness :
    (latlong2world (1/2) (1/2)).1 ^ 2 + (latlong2world (1/2) (1/2)).2.1 ^ 2 +
      (latlong2world (1/2) (1/2)).2.2.1 ^ 2 = 1 ∧
    (angular2world (1/2) (1/2)).1 ^ 2 + (angular2world (1/2) (1/2)).2.1 ^ 2 +
      (angular2world (1/2) (1/2)).2.2.1 ^ 2 = 1 ∧
    (skyangular2world (1/2) (1/2)).1 ^ 2 + (skyangular2world (1/2) (1/2)).2.1 ^ 2 +
      (skyangular2world (1/2) (1/2)).2.2.1 ^ 2 = 1 :=
  ⟨(C9_unit_sphere (1/2) (1/2)).1 trivial,
   (C9_unit_sphere (1/2) (1/2)).2.1 (by norm_num [angular2world]),
   (C9_unit_sphere (1/2) (1/2)).2.2 (by norm_num [skyangular2world])⟩

/-! Claim C8, about the coordinate grid. -/

lemma imageCoordinatesU_eq (e : EnvironmentMap) (i j : ℕ) :
    imageCoordinatesU e i j = (2 * (j : ℝ) + 1) / (2 * (e.data.cols : ℝ)) := by
  unfold imageCoordinatesU linspace01
  push_cast
  ring_nf

lemma imageCoordinatesV_eq (e : EnvironmentMap) (i j : ℕ) :
    imageCoordinatesV e i j = (2 * (i : ℝ) + 1) / (2 * (e.data.rows : ℝ)) := by
  unfold imageCoordinatesV linspace01
  push_cast
  ring_nf

/-- C8: for a map with positive dimensions, the coordinates of pixel centers
are `(2k+1)/(2n)` along each axis (n = cols for U, n = rows for V), with U
independent of the row index and strictly increasing in the column index,
and V strictly increasing in the row index. -/
theorem C8_pixel_centers (e : EnvironmentMap)
    (hr : 0 < e.data.rows) (hc : 0 < e.data.cols) :
    (∀ i j, i < e.data.rows → j < e.data.cols →
      imageCoordinatesU e i j = (2 * (j : ℝ) + 1) / (2 * (e.data.cols : ℝ)) ∧
      imageCoordinatesV e i j = (2 * (i : ℝ) + 1) / (2 * (e.data.rows : ℝ))) ∧
    (∀ i i' j, imageCoordinatesU e i j = imageCoordinatesU e i' j) ∧
    (∀ i j j', j < j' → imageCoordinatesU e i j < imageCoordinatesU e i j') ∧
    (∀ i i' j, i < i' → imageCoordinatesV e i j < imageCoordinatesV e i' j) := by
  have hcR : (0 : ℝ) < (e.data.cols : ℝ) := by exact_mod_cast hc
  have hrR : (0 : ℝ) < (e.data.rows : ℝ) := by exact_mod_cast hr
  refine ⟨fun i j _ _ => ⟨imageCoordinatesU_eq e i j, imageCoordinatesV_eq e i j⟩,
    fun i i' j => by rw [imageCoordinatesU_eq, imageCoordinatesU_eq],
    fun i j j' hj => ?_, fun i i' j hi => ?_⟩
  · rw [imageCoordinatesU_eq, imageCoordinatesU_eq]
    have hjR : (j : ℝ) < (j' : ℝ) := by exact_mod_cast hj
    have hden : (0 : ℝ) < 2 * (e.data.cols : ℝ) := by linarith
    rw [div_lt_div_iff₀ hden hden]
    nlinarith
  · rw [imageCoordinatesV_eq, imageCoordinatesV_eq]
    have hiR : (i : ℝ) < (i' : ℝ) := by exact_mod_cast hi
    have hden : (0 : ℝ) < 2 * (e.data.rows : ℝ) := by linarith
    rw [div_lt_div_iff₀ hden hden]
    nlinarith

/-- C8 witness: the pixel-center facts at the concrete 2×2 map. -/
theorem C8_witness :
    imageCoordinatesU e22 0 1 = (2 * ((1 : ℕ) : ℝ) + 1) / (2 * (e22.data.cols : ℝ)) ∧
    imageCoordinatesV e22 1 0 = (2 * ((1 : ℕ) : ℝ) + 1) / (2 * (e22.data.rows : ℝ)) ∧
    imageCoordinatesU e22 0 0 < imageCoordinatesU e22 0 1 ∧
    imageCoordinatesV e22 0 0 < imageCoordinatesV e22 1 0 :=
  ⟨((C8_pixel_centers e22 (by decide) (by decide)).1 0 1 (by decide) (by decide)).1,
   ((C8_pixel_centers e22 (by decide) (by decide)).1 1 0 (by decide) (by decide)).2,
   (C8_pixel_centers e22 (by decide) (by decide)).2.2.1 0 0 1 (by decide),
   (C8_pixel_centers e22 (by decide) (by decide)).2.2.2 0 1 0 (by decide)⟩

/-! Claim C1: the round-trip identity. -/

/-- C1 counterexample: the boundary point (0, 1/2) of the angular disk is
valid (`(0-0.5)² + (0.5-0.5)² = 0.25 ≤ 0.25`), yet composing
`angular2world` with `world2angular` there yields exactly (1/2, 1/2), not
(0, 1/2) — an error of 1/2, far beyond any floating-point tolerance. -/
theorem C1_counterexample :
    (angular2world 0 (1 / 2)).2.2.2 ∧
    angularRT 0 (1 / 2) = (1 / 2, 1 / 2) ∧
    ((1 / 2 : ℝ), (1 / 2 : ℝ)) ≠ ((0 : ℝ), (1 / 2 : ℝ)) := by
  refine ⟨by norm_num [angular2world], ?_, by norm_num [Prod.ext_iff]⟩
  have h1 : (angular2world 0 (1 / 2 : ℝ)).1 = 0 := by
    norm_num [angular2world, Real.sqrt_one, Real.sin_pi]
  have h2 : (angular2world 0 (1 / 2 : ℝ)).2.1 = 0 := by
    norm_num [angular2world, Real.sqrt_one, Real.sin_pi]
  have h3 : (angular2world 0 (1 / 2 : ℝ)).2.2.1 = 1 := by
    norm_num [angular2world, Real.sqrt_one, Real.cos_pi]
  unfold angularRT
  rw [h1, h2, h3]
  norm_num [world2angular]

/-- C1 amended: the round trip reproduces (u, v) exactly for LatLong on
`(0,1]×(0,1)` (it fails at the poles and at the seam u = 0) and for
SkyAngular on the whole valid disk; for Angular the boundary of the disk
fails outright (see the counterexample), and strictly inside the disk the
round trip reproduces each coordinate up to the deviation introduced by the
eps singularity guard, at most `eps / (4π·sin(π·√((2u-1)²+(2v-1)²)))`. -/
theorem C1_roundtrip_amended (u v : ℝ) :
    (0 < u → u ≤ 1 → 0 < v → v < 1 → latlongRT u v = (u, v)) ∧
    ((u - 0.5) ^ 2 + (v - 0.5) ^ 2 ≤ 0.25 → skyangularRT u v = (u, v)) ∧
    ((u - 0.5) ^ 2 + (v - 0.5) ^ 2 < 0.25 →
      |(angularRT u v).1 - u| ≤
        eps / (4 * π * Real.sin (π * Real.sqrt ((2 * u - 1) ^ 2 + (2 * v - 1) ^ 2))) ∧
      |(angularRT u v).2 - v| ≤
        eps / (4 * π * Real.sin (π * Real.sqrt ((2 * u - 1) ^ 2 + (2 * v - 1) ^ 2)))) :=
  ⟨fun h1 h2 h3 h4 => latlong_roundtrip u v h1 h2 h3 h4,
   fun hd => skyangular_roundtrip u v hd,
   fun hd => angular_roundtrip_err u v hd⟩

/-- C1 witness: the amended round-trip facts instantiated at the interior
point (1/2, 1/2). -/
theorem C1_witness :
    latlongRT (1 / 2) (1 / 2) = (1 / 2, 1 / 2) ∧
    skyangularRT (1 / 2) (1 / 2) = (1 / 2, 1 / 2) ∧
    (|(angularRT (1 / 2) (1 / 2)).1 - 1 / 2| ≤
      eps / (4 * π * Real.sin (π * Real.sqrt ((2 * (1 / 2 : ℝ) - 1) ^ 2 +
        (2 * (1 / 2 : ℝ) - 1) ^ 2))) ∧
     |(angularRT (1 / 2) (1 / 2)).2 - 1 / 2| ≤
      eps / (4 * π * Real.sin (π * Real.sqrt ((2 * (1 / 2 : ℝ) - 1) ^ 2 +
        (2 * (1 / 2 : ℝ) - 1) ^ 2)))) :=
  ⟨(C1_roundtrip_amended (1 / 2) (1 / 2)).1 (by norm_num) (by norm_num) (by norm_num)
     (by norm_num),
   (C1_roundtrip_amended (1 / 2) (1 / 2)).2.1 (by norm_num),
   (C1_roundtrip_amended (1 / 2) (1 / 2)).2.2 (by norm_num)⟩

end Skylibs

